import Mathlib

/-!
Verification development for the exam-authoring and scoring core of the
adminapp1 repository.

The embedding covers:
- the Scientific-Notation Text Formatter `formatScientificText`
  (src/unnamed/part_004, lines 16-31);
- the Question-Bank Normalizer `smartParseJSON` (same file, lines 46-120),
  over a JSON value type `JValue` that models parsed JSON together with
  the JavaScript coercions (truthiness, String(...), Number(...)) that the
  source applies to it;
- the export projection of `DataTab` (same file, lines 493-510) and the
  Apply-to-Exam handler `handleApplyJson` (lines 512-523);
- the question-builder `changeType` handler (lines 345-355);
- the result scoring, attempt numbering and review breakdown of
  `ResultsManager.tsx` (lines 192-207, 269-276, 388-394, 586-588).

JavaScript numbers are modelled as exact numbers: `Int` where the source
only stores and compares integers, and `Rat` for the score arithmetic of
ResultsManager so that division and Math.round are exact.  All definitions
are computable and structurally recursive (regex scans use an explicit
fuel argument equal to the input length) so that concrete runs reduce by
`rfl`/`decide`.
-/

/-- A parsed JSON value, as produced by JSON.parse.  Absent object fields
(JavaScript undefined) are modelled by `Option JValue` at use sites. -/
inductive JValue where
  | null : JValue
  | bool (b : Bool) : JValue
  | num (n : Int) : JValue
  | str (s : String) : JValue
  | arr (elems : List JValue) : JValue
  | obj (fields : List (String × JValue)) : JValue

/-- JavaScript truthiness of a value: false, 0, the empty string and null
are falsy; every array and object is truthy. -/
def jTruthy : JValue → Bool
  | .null => false
  | .bool b => b
  | .num n => n != 0
  | .str s => s != ""
  | .arr _ => true
  | .obj _ => true

/-- Join a list of strings with comma separators, the behaviour of
Array.prototype.join with the default separator. -/
def joinComma : List String → String
  | [] => ""
  | [x] => x
  | x :: xs => x ++ "," ++ joinComma xs

/-- Array-nesting bound under which the String(v) coercion below agrees
exactly with the JavaScript semantics.  The bound only serves to make the
recursion into nested arrays structural (and hence kernel-reducible); no
value in this development nests arrays anywhere near this deep. -/
def jsDepthBound : Nat := 4096

/-- Fuel-indexed body of the String(v) coercion.  Arrays stringify as
their elements joined with commas (null elements becoming empty), objects
as the literal text `[object Object]`.  The fuel decreases once per
array-nesting level. -/
def jToStringFuel : Nat → JValue → String
  | 0, _ => ""
  | _ + 1, .null => "null"
  | _ + 1, .bool true => "true"
  | _ + 1, .bool false => "false"
  | _ + 1, .num n => toString n
  | _ + 1, .str s => s
  | _ + 1, .obj _ => "[object Object]"
  | f + 1, .arr xs =>
    joinComma (xs.map (fun x => match x with
      | .null => ""
      | x => jToStringFuel f x))

/-- JavaScript String(v) coercion. -/
def jToString (v : JValue) : String := jToStringFuel jsDepthBound v

/-- Substring containment on character lists, the semantics of
JavaScript String.prototype.includes. -/
def charsContain (hay needle : List Char) : Bool :=
  hay.tails.any (fun t => needle.isPrefixOf t)

/-- String containment `hay.includes(needle)`. -/
def strContainsSub (hay needle : String) : Bool :=
  charsContain hay.data needle.data

/-- ASCII lower-casing, the effect of toLowerCase on the key names the
Normalizer inspects (written over the character list so that it reduces
inside the kernel). -/
def strToLower (s : String) : String := String.mk (s.data.map Char.toLower)

/-- Accumulate a decimal digit list into a natural number. -/
def digitsToNat : List Char → Nat → Nat
  | [], acc => acc
  | c :: cs, acc => digitsToNat cs (acc * 10 + (c.toNat - 48))

/-- Decimal parse of a non-empty all-digit string. -/
def strToNat? (s : String) : Option Nat :=
  match s.data with
  | [] => none
  | l => if l.all Char.isDigit then some (digitsToNat l 0) else none

/-- Decimal parse of an optionally sign-prefixed integer string. -/
def strToInt? (s : String) : Option Int :=
  match s.data with
  | '-' :: rest =>
    (strToNat? (String.mk rest)).map (fun n => -(n : Int))
  | l => (strToNat? (String.mk l)).map (fun n => (n : Int))

/-- JavaScript Number(v) coercion on the fragment the Normalizer can
receive.  String inputs are decimal-parsed; inputs that would give NaN in
JavaScript (non-numeric strings, plain objects) are modelled as 0 — no
claim exercises a NaN-producing coercion. -/
def jToNumber : JValue → Int
  | .null => 0
  | .bool true => 1
  | .bool false => 0
  | .num n => n
  | .str s => (strToInt? s).getD 0
  | .arr [] => 0
  | .arr (_ :: _) => 0
  | .obj _ => 0

/-- Property access `value[key]`: object fields are looked up by name;
arrays answer their canonical numeric index strings (the only keys the
Normalizer ever feeds back into an array).  Everything else, including a
missing field, is JavaScript undefined, modelled as `none`. -/
def jGet : JValue → String → Option JValue
  | .obj fields, k => (fields.find? (fun kv => kv.1 == k)).map (·.2)
  | .arr xs, k =>
    match strToNat? k with
    | some i => xs[i]?
    | none => none
  | _, _ => none

/-- Object.keys: field names of an object in insertion order, index
strings for an array, empty for primitives. -/
def jKeys : JValue → List String
  | .obj fields => fields.map (·.1)
  | .arr xs => (List.range xs.length).map toString
  | _ => []

-- --- Smart Formatting Logic (formatScientificText, part_004 lines 16-31) ---

/-- The subscript digit glyphs, the indexing string of toSub. -/
def subDigits : List Char := ['₀', '₁', '₂', '₃', '₄', '₅', '₆', '₇', '₈', '₉']

/-- The superscript digit glyphs, the indexing string of toSup. -/
def supDigits : List Char := ['⁰', '¹', '²', '³', '⁴', '⁵', '⁶', '⁷', '⁸', '⁹']

/-- toSub on one digit character: index the glyph string by the digit. -/
def toSubChar (c : Char) : Char := subDigits.getD (c.toNat - 48) c

/-- toSup on one digit character. -/
def toSupChar (c : Char) : Char := supDigits.getD (c.toNat - 48) c

/-- Membership in the character class `[₀-₉]` (U+2080 to U+2089, exactly
the subscript digit glyphs). -/
def isSubGlyph (c : Char) : Bool := 0x2080 ≤ c.toNat && c.toNat ≤ 0x2089

/-- Membership in the character class `[⁰-⁹]` (the code-point RANGE
U+2070 to U+2079, as the source regex literally says: it contains the
superscript glyphs for 0 and 4-9 but NOT those for 1, 2 and 3, which
live at U+00B9, U+00B2 and U+00B3). -/
def isSupRangeGlyph (c : Char) : Bool := 0x2070 ≤ c.toNat && c.toNat ≤ 0x2079

/-- A word character of the regex `\b` boundary: ASCII letter, ASCII
digit or underscore. -/
def isWordChar (c : Char) : Bool := c.isUpper || c.isLower || c.isDigit || c == '_'

/-- Global replace of `marker(\d+)` by the converted digit run, the shape
of the first two formatter rules.  The scan mirrors a JavaScript global
regex replace: leftmost match, greedy digit run, resume after the match.
The fuel argument (instantiated with the input length) only makes the
recursion structural; each step consumes at least one character, so fuel
never runs out. -/
def replacePrefixRun (marker : Char) (conv : Char → Char) : Nat → List Char → List Char
  | 0, l => l
  | _ + 1, [] => []
  | fuel + 1, c :: rest =>
    if c == marker then
      let ds := rest.takeWhile Char.isDigit
      if ds.isEmpty then c :: replacePrefixRun marker conv fuel rest
      else ds.map conv ++ replacePrefixRun marker conv fuel (rest.dropWhile Char.isDigit)
    else c :: replacePrefixRun marker conv fuel rest

/-- Global replace of `(glyph)(\d+)` by the glyph followed by the
converted digit run, the shape of formatter rules 3 and 4. -/
def replaceGlyphRun (glyph : Char → Bool) (conv : Char → Char) : Nat → List Char → List Char
  | 0, l => l
  | _ + 1, [] => []
  | fuel + 1, c :: rest =>
    if glyph c then
      let ds := rest.takeWhile Char.isDigit
      if ds.isEmpty then c :: replaceGlyphRun glyph conv fuel rest
      else c :: (ds.map conv ++ replaceGlyphRun glyph conv fuel (rest.dropWhile Char.isDigit))
    else c :: replaceGlyphRun glyph conv fuel rest

/-- Global replace of `([A-Z][a-z]?)(\d+)`: an uppercase letter, an
optional lowercase letter, then a digit run converted to subscripts
(formatter rule 5).  When the optional lowercase letter is present but no
digits follow it, the regex engine fails at this position and resumes one
character later, exactly as the scan below does. -/
def replaceElementRun : Nat → List Char → List Char
  | 0, l => l
  | _ + 1, [] => []
  | fuel + 1, c :: rest =>
    if c.isUpper then
      let ds := rest.takeWhile Char.isDigit
      if !ds.isEmpty then
        c :: (ds.map toSubChar ++ replaceElementRun fuel (rest.dropWhile Char.isDigit))
      else
        match rest with
        | c2 :: rest2 =>
          if c2.isLower then
            let ds2 := rest2.takeWhile Char.isDigit
            if !ds2.isEmpty then
              c :: c2 :: (ds2.map toSubChar ++ replaceElementRun fuel (rest2.dropWhile Char.isDigit))
            else c :: replaceElementRun fuel rest
          else c :: replaceElementRun fuel rest
        | [] => [c]
    else c :: replaceElementRun fuel rest

/-- Global replace of `\b([a-z])(\d+)` (formatter rule 6).  The boundary
test inspects the previous character of the string being scanned, which
after a match is the last digit of that match. -/
def replaceVarRun : Nat → Option Char → List Char → List Char
  | 0, _, l => l
  | _ + 1, _, [] => []
  | fuel + 1, prev, c :: rest =>
    let boundary := match prev with
      | none => true
      | some p => !isWordChar p
    if c.isLower && boundary then
      let ds := rest.takeWhile Char.isDigit
      if !ds.isEmpty then
        c :: (ds.map toSupChar ++ replaceVarRun fuel (some (ds.getLastD c)) (rest.dropWhile Char.isDigit))
      else c :: replaceVarRun fuel (some c) rest
    else c :: replaceVarRun fuel (some c) rest

/-- formatScientificText (part_004 lines 16-31): the six regex replaces
applied in order, each to the output of the previous one. -/
def formatScientificText (text : String) : String :=
  if text = "" then ""
  else
    let l0 := text.data
    let l1 := replacePrefixRun '^' toSupChar l0.length l0
    let l2 := replacePrefixRun '_' toSubChar l1.length l1
    let l3 := replaceGlyphRun isSubGlyph toSubChar l2.length l2
    let l4 := replaceGlyphRun isSupRangeGlyph toSupChar l3.length l3
    let l5 := replaceElementRun l4.length l4
    let l6 := replaceVarRun l5.length none l5
    String.mk l6

-- --- Data model (src/types.ts) ---

/-- QuestionType (types.ts line 23). -/
inductive QuestionType where
  | multipleChoice : QuestionType
  | trueFalse : QuestionType
  | shortAnswer : QuestionType
deriving DecidableEq, Repr

/-- The string stored for a QuestionType, as in the TypeScript union. -/
def QuestionType.asString : QuestionType → String
  | .multipleChoice => "multiple-choice"
  | .trueFalse => "true-false"
  | .shortAnswer => "short-answer"

/-- Question (types.ts lines 25-32).  correctAnswerText is optional in
the TypeScript interface, hence `Option String`. -/
structure Question where
  id : String
  type : QuestionType
  text : String
  options : List String
  correctAnswer : Int
  correctAnswerText : Option String := none
deriving DecidableEq, Repr

/-- Exam (types.ts lines 34-50).  The difficulty field travels through
the Normalizer as a raw JSON value, so it is kept as `JValue` here;
scheduledDate is kept as its string form.  Optional numeric fields carry
the defaults the editor state uses. -/
structure Exam where
  id : String := ""
  title : String := ""
  description : String := ""
  durationMinutes : Int := 0
  questionCount : Int := 0
  questions : List Question := []
  totalMarks : Int := 0
  difficulty : JValue := .str "Medium"
  scheduledDate : String := ""
  isPublished : Bool := false
  maxAttempts : Int := 0
  shuffleQuestions : Bool := false
  negativeMarking : Int := 0
  targetClass : String := ""
  targetDivision : String := ""

/-- The Partial Exam metadata collected by smartParseJSON: a field is
`some` exactly when the source assigned it on the meta object. -/
structure ExamMeta where
  title : Option String := none
  description : Option String := none
  durationMinutes : Option Int := none
  difficulty : Option JValue := none
  totalMarks : Option Int := none
  maxAttempts : Option Int := none
  shuffleQuestions : Option Bool := none
  negativeMarking : Option Int := none
  targetClass : Option String := none
  targetDivision : Option String := none

/-- The return shape of smartParseJSON. -/
structure ParseResult where
  questions : List Question
  meta : ExamMeta
  error : Option String

-- --- Smart Parsing Logic (smartParseJSON, part_004 lines 46-120) ---

/-- Resolve the question type from the `type` field (lines 92-94).  A
truthy non-string value would make toLowerCase throw in JavaScript; that
exception, caught by the catch-all of smartParseJSON, is modelled as
`Except.error`. -/
def resolveType (item : JValue) : Except Unit QuestionType :=
  match jGet item "type" with
  | none => .ok .multipleChoice
  | some v =>
    match v with
    | .str s =>
      if s != "" && strContainsSub (strToLower s) "short" then .ok .shortAnswer
      else if s != "" && (strContainsSub (strToLower s) "true" || s == "tf") then .ok .trueFalse
      else .ok .multipleChoice
    | _ => if jTruthy v then .error () else .ok .multipleChoice

/-- Resolve the prompt text (lines 89-90): first key whose lowercase name
contains text, question or prompt; the value is string-coerced when
truthy, otherwise the text is empty.  A missing key makes textKey the
empty string, whose lookup is undefined, giving the empty text as well. -/
def resolvedText (item : JValue) : String :=
  let textKey := ((jKeys item).find? (fun k =>
    ["text", "question", "prompt"].any (fun s => strContainsSub (strToLower k) s))).getD ""
  match jGet item textKey with
  | some v => if jTruthy v then jToString v else ""
  | none => ""

/-- Resolve the raw options list (lines 96-97): first key whose lowercase
name contains options, choices or answers; if its value is an array its
elements are string-coerced, otherwise the list is empty. -/
def resolvedOptions (item : JValue) : List String :=
  let optionsKey := ((jKeys item).find? (fun k =>
    ["options", "choices", "answers"].any (fun s => strContainsSub (strToLower k) s))).getD ""
  match jGet item optionsKey with
  | some (.arr xs) => xs.map jToString
  | _ => []

/-- Resolve the raw correct-answer value (line 102): the value under the
first key whose lowercase name contains correct or answer. -/
def resolvedCorrect (item : JValue) : Option JValue :=
  let correctKey := ((jKeys item).find? (fun k =>
    ["correct", "answer"].any (fun s => strContainsSub (strToLower k) s))).getD ""
  jGet item correctKey

/-- The JavaScript expression String(v || ``): the string coercion of v
when v is truthy, the empty string when v is absent or falsy. -/
def jsStringOrEmpty (v : Option JValue) : String :=
  match v with
  | some x => if jTruthy x then jToString x else ""
  | none => ""

/-- One element of the candidate array (lines 86-114).  Non-objects map
to null and are filtered out (`Option.none`).  JavaScript typeof also
calls arrays objects, and a JSON array has only index keys, none of which
matches any key search, so arrays flow through the same generic path.
The id argument models the generateId() call: fresh, opaque, never taken
from the source JSON. -/
def parseItem (id : String) (item : JValue) : Except Unit (Option Question) :=
  match item with
  | .obj _ | .arr _ =>
    match resolveType item with
    | .error e => .error e
    | .ok t =>
      let text := resolvedText item
      let options0 := resolvedOptions item
      let options1 := if t = .multipleChoice ∧ options0.length < 2
                      then ["", "", "", ""] else options0
      let options2 := if t = .trueFalse then ["True", "False"] else options1
      let cv := resolvedCorrect item
      let correctAnswer : Int := match cv with | some (.num n) => n | _ => 0
      let correctAnswerText := if t = .shortAnswer then jsStringOrEmpty cv else ""
      .ok (some {
        id := id,
        text := formatScientificText text,
        type := t,
        options := options2.map formatScientificText,
        correctAnswer := correctAnswer,
        correctAnswerText := some (formatScientificText correctAnswerText) })
  | _ => .ok none

/-- The map-and-filter over the candidate array.  The counter is the
element position, used to hand each element a fresh id; a thrown
exception from any element aborts the whole parse, as the single
try/catch of the source does. -/
def parseQuestions (newId : Nat → String) : Nat → List JValue → Except Unit (List Question)
  | _, [] => .ok []
  | i, item :: rest =>
    match parseItem (newId i) item with
    | .error e => .error e
    | .ok none => parseQuestions newId (i + 1) rest
    | .ok (some q) =>
      match parseQuestions newId (i + 1) rest with
      | .error e => .error e
      | .ok qs => .ok (q :: qs)

/-- Exam-level metadata extraction from the root object (lines 56-65).
Truthiness-guarded fields (title, description, difficulty, totalMarks,
duration) are omitted when falsy; presence-guarded fields (maxAttempts,
shuffleQuestions, negativeMarking, targetClass, targetDivision) are set
whenever the key is not undefined. -/
def extractMeta (root : JValue) : ExamMeta :=
  { title := match jGet root "title" with
      | some v => if jTruthy v then some (jToString v) else none
      | none => none
    description := match jGet root "description" with
      | some v => if jTruthy v then some (jToString v) else none
      | none => none
    durationMinutes :=
      let dm := jGet root "durationMinutes"
      let d := jGet root "duration"
      let truthy : Option JValue → Bool := fun o => match o with
        | some v => jTruthy v
        | none => false
      if truthy dm || truthy d then
        some (jToNumber (match dm with
          | some v => if jTruthy v then v else (d.getD .null)
          | none => d.getD .null))
      else none
    difficulty := match jGet root "difficulty" with
      | some v => if jTruthy v then some v else none
      | none => none
    totalMarks := match jGet root "totalMarks" with
      | some v => if jTruthy v then some (jToNumber v) else none
      | none => none
    maxAttempts := (jGet root "maxAttempts").map jToNumber
    shuffleQuestions := (jGet root "shuffleQuestions").map jTruthy
    negativeMarking := (jGet root "negativeMarking").map jToNumber
    targetClass := (jGet root "targetClass").map jToString
    targetDivision := (jGet root "targetDivision").map jToString }

/-- Is a value a non-empty array whose first element has typeof object
(object, array or null), the condition of the key scan at line 74. -/
def isCandidateArray : Option JValue → Bool
  | some (.arr (x :: _)) =>
    match x with
    | .obj _ => true
    | .arr _ => true
    | .null => true
    | _ => false
  | _ => false

/-- Locate the candidate question array under an object root (lines
67-79): a `questions` array, then a `data` array, then the first own key
holding a non-empty array of objects. -/
def candidateArray (root : JValue) : List JValue :=
  match jGet root "questions" with
  | some (.arr qs) => qs
  | _ =>
    match jGet root "data" with
    | some (.arr ds) => ds
    | _ =>
      match (jKeys root).find? (fun k => isCandidateArray (jGet root k)) with
      | some k =>
        match jGet root k with
        | some (.arr xs) => xs
        | _ => []
      | none => []

/-- smartParseJSON (part_004 lines 46-120).  An array input is the
candidate array itself; an object input is searched for metadata and a
candidate array (through an `exam` sub-object when that is truthy);
primitives and null leave the candidate array at its initial value `[]`.
The structural-error guard of line 82 compares `potentialArray` against
undefined and non-arrays, but potentialArray is initialised to `[]` — a
truthy array in JavaScript — and is only ever reassigned arrays, so that
branch can never be taken and has no counterpart here: an input with no
recognisable question array yields questions `[]` with NO error.  The
only reachable error is the catch-all for exceptions thrown while mapping
the candidate array. -/
def smartParseJSON (newId : Nat → String) (json : JValue) : ParseResult :=
  match json with
  | .arr xs =>
    match parseQuestions newId 0 xs with
    | .ok qs => ⟨qs, {}, none⟩
    | .error _ => ⟨[], {}, some "Malformed JSON."⟩
  | .obj _ =>
    let root := match jGet json "exam" with
      | some v => if jTruthy v then v else json
      | none => json
    let meta := extractMeta root
    match parseQuestions newId 0 (candidateArray root) with
    | .ok qs => ⟨qs, meta, none⟩
    | .error _ => ⟨[], {}, some "Malformed JSON."⟩
  | _ => ⟨[], {}, none⟩

-- --- Export projection and Apply-to-Exam (DataTab, part_004 lines 488-543) ---

/-- The fields of the per-question export record of the DataTab effect
(lines 505-507): exactly text, type, options, correctAnswer and
correctAnswerText, with id intentionally omitted.  A missing
correctAnswerText is dropped by JSON.stringify, so the serialized object
simply lacks the key. -/
def exportQuestionFields (q : Question) : List (String × JValue) :=
  [("text", .str q.text),
   ("type", .str q.type.asString),
   ("options", .arr (q.options.map .str)),
   ("correctAnswer", .num q.correctAnswer)] ++
    (match q.correctAnswerText with
     | some s => [("correctAnswerText", .str s)]
     | none => [])

/-- The per-question export record. -/
def exportQuestion (q : Question) : JValue := .obj (exportQuestionFields q)

/-- The fields of the exported exam JSON (lines 495-509). -/
def exportExamFields (e : Exam) : List (String × JValue) :=
  [("title", .str e.title),
   ("description", .str e.description),
   ("difficulty", e.difficulty),
   ("durationMinutes", .num e.durationMinutes),
   ("maxAttempts", .num e.maxAttempts),
   ("shuffleQuestions", .bool e.shuffleQuestions),
   ("negativeMarking", .num e.negativeMarking),
   ("targetClass", .str e.targetClass),
   ("targetDivision", .str e.targetDivision),
   ("questions", .arr (e.questions.map exportQuestion))]

/-- The exported exam JSON. -/
def exportExam (e : Exam) : JValue := .obj (exportExamFields e)

/-- The object spread of prev and meta in handleApplyJson: a metadata
field present on meta overrides the exam field, an absent one leaves it
untouched; questions and every non-metadata field stay those of prev. -/
def mergeMeta (prev : Exam) (m : ExamMeta) : Exam :=
  { prev with
    title := m.title.getD prev.title
    description := m.description.getD prev.description
    durationMinutes := m.durationMinutes.getD prev.durationMinutes
    difficulty := m.difficulty.getD prev.difficulty
    totalMarks := m.totalMarks.getD prev.totalMarks
    maxAttempts := m.maxAttempts.getD prev.maxAttempts
    shuffleQuestions := m.shuffleQuestions.getD prev.shuffleQuestions
    negativeMarking := m.negativeMarking.getD prev.negativeMarking
    targetClass := m.targetClass.getD prev.targetClass
    targetDivision := m.targetDivision.getD prev.targetDivision }

/-- The exam update performed by handleApplyJson (lines 512-523): on an
error result the exam is untouched (only the error banner is set); on
success the metadata is spread over the previous exam state and the
question list is replaced only when the parse produced at least one
question. -/
def handleApplyJson (prev : Exam) (r : ParseResult) : Exam :=
  match r.error with
  | some _ => prev
  | none =>
    { mergeMeta prev r.meta with
      questions := if r.questions.length > 0 then r.questions else prev.questions }

-- --- Builder changeType (part_004 lines 345-355) ---

/-- The per-question body of changeType: set the new type, then apply the
canonical reset of the chosen type. -/
def changeTypeQ (q : Question) (t : QuestionType) : Question :=
  let q1 := { q with type := t }
  match t with
  | .trueFalse => { q1 with options := ["True", "False"], correctAnswer := 0 }
  | .shortAnswer => { q1 with options := [], correctAnswerText := some "" }
  | .multipleChoice => { q1 with options := ["", "", "", ""], correctAnswer := 0 }

/-- changeType over the question list of the exam state.  The source
reads qs[idx], rebuilds the question and writes it back; an out-of-range
index (never produced by the UI) is modelled as a no-op. -/
def changeType (qs : List Question) (idx : Nat) (t : QuestionType) : List Question :=
  match qs[idx]? with
  | some q => qs.set idx (changeTypeQ q t)
  | none => qs

-- --- Result scoring and review (ResultsManager.tsx) ---

/-- Result (types.ts lines 72-85).  Scores are JavaScript numbers used in
exact divisions, modelled as rationals; submittedAtMs is the millisecond
timestamp parseDate(submittedAt)?.getTime() resolves to (0 for an
unparsable date, the fallback of the sort comparator). -/
structure Result where
  id : String
  examId : String
  examTitle : String := ""
  studentId : String
  studentName : String := ""
  score : Rat
  totalMarks : Rat
  submittedAtMs : Int
  answers : List Int := []
  timeTakenSeconds : Int := 0
  isHidden : Bool := false
deriving DecidableEq, Repr

/-- Math.round on an exact number: floor of x + 1/2 (JavaScript rounds
halves toward positive infinity). -/
def jsRound (x : Rat) : Int := ⌊x + 1 / 2⌋

/-- The displayed percentage (ResultsManager line 587 and line 362):
Math.round((score / totalMarks) * 100). -/
def resultPercentage (r : Result) : Int := jsRound (r.score / r.totalMarks * 100)

/-- The per-row passed classification (line 588): percentage at least 50. -/
def resultIsPassed (r : Result) : Bool := decide (50 ≤ resultPercentage r)

/-- The predicate of the pass-rate statistic (line 271): the raw ratio
score / totalMarks at least 0.5, with no rounding. -/
def passRatePred (r : Result) : Bool := decide ((1 : Rat) / 2 ≤ r.score / r.totalMarks)

/-- The ascending-date order of the attempt-numbering sort comparator
(lines 199-203): dateA - dateB non-positive. -/
def resultLe (a b : Result) : Prop := a.submittedAtMs ≤ b.submittedAtMs

instance : DecidableRel resultLe := fun a b =>
  inferInstanceAs (Decidable (a.submittedAtMs ≤ b.submittedAtMs))

instance : IsTotal Result resultLe := ⟨fun a b => Int.le_total a.submittedAtMs b.submittedAtMs⟩

instance : IsTrans Result resultLe := ⟨fun _ _ _ h1 h2 => le_trans h1 h2⟩

/-- The stable ascending sort the source applies through
Array.prototype.sort with the date comparator. -/
def sortResults (l : List Result) : List Result := List.insertionSort resultLe l

/-- The attempt-numbering computation (lines 192-207): filter the full
result set to the (studentId, examId) pair of the selected result, sort
ascending by submission date, and report the 1-based position of the
selected result id together with the set size.  A findIndex miss returns
-1 in JavaScript, making the attempt number 0. -/
def attemptInfo (results : List Result) (selected : Result) : Nat × Nat :=
  let studentExamResults := results.filter (fun r =>
    r.studentId == selected.studentId && r.examId == selected.examId)
  let sorted := sortResults studentExamResults
  match sorted.findIdx? (fun r => r.id == selected.id) with
  | some index => (index + 1, sorted.length)
  | none => (0, sorted.length)

/-- The per-question verdict of the review breakdown (lines 390-394).
studentAnswerIdx is answers[idx], which past the end of the answers array
is JavaScript undefined (`none`): strict equality against a number is
then false, and the skipped test against -1 or undefined is true. -/
structure Verdict where
  studentAnswerIdx : Option Int
  isCorrect : Bool
  isSkipped : Bool
deriving DecidableEq, Repr

/-- One question of the breakdown at index idx. -/
def questionVerdict (answers : List Int) (idx : Nat) (q : Question) : Verdict :=
  let a := answers[idx]?
  { studentAnswerIdx := a
    isCorrect := match a with
      | some v => v == q.correctAnswer
      | none => false
    isSkipped := match a with
      | some v => v == -1
      | none => true }

/-- The indexed map over reviewExam.questions (line 390), written with an
explicit position counter. -/
def reviewBreakdownFrom (answers : List Int) : Nat → List Question → List Verdict
  | _, [] => []
  | i, q :: qs => questionVerdict answers i q :: reviewBreakdownFrom answers (i + 1) qs

/-- The full review breakdown of a result against an exam. -/
def reviewBreakdown (questions : List Question) (answers : List Int) : List Verdict :=
  reviewBreakdownFrom answers 0 questions

-- --- Shared helper definitions and lemmas ---

/-- A concrete fresh-id supply for closed evaluations. -/
def sampleId : Nat → String := fun n => "q" ++ toString n

/-- Length of the indexed review map. -/
theorem reviewBreakdownFrom_length (answers : List Int) :
    ∀ (qs : List Question) (i : Nat), (reviewBreakdownFrom answers i qs).length = qs.length := by
  intro qs
  induction qs with
  | nil => intro i; rfl
  | cons q qs ih => intro i; simpa [reviewBreakdownFrom] using ih (i + 1)

/-- Element access into the indexed review map. -/
theorem reviewBreakdownFrom_getElem? (answers : List Int) :
    ∀ (qs : List Question) (i j : Nat),
      (reviewBreakdownFrom answers i qs)[j]? = qs[j]?.map (questionVerdict answers (i + j)) := by
  intro qs
  induction qs with
  | nil => intro i j; rfl
  | cons q qs ih =>
    intro i j
    cases j with
    | zero => simp [reviewBreakdownFrom]
    | succ j =>
      have := ih (i + 1) j
      simpa [reviewBreakdownFrom, Nat.add_assoc, Nat.add_comm 1 j] using this

-- --- Claim theorems ---

/-- C1 (code_bug evidence): the source intends a structural error when no
candidate question array exists — the guard at part_004 line 82 carries
exactly that message — but potentialArray is initialised to the truthy
array `[]`, so the guard is dead: importing either an empty object or an
object whose data field is an empty array yields an empty question list
with NO error, an empty-but-successful result. -/
theorem smartParseJSON_accepts_empty_shapes :
    (smartParseJSON sampleId (.obj [])).error = none ∧
    (smartParseJSON sampleId (.obj [])).questions = [] ∧
    (smartParseJSON sampleId (.obj [("data", .arr [])])).error = none ∧
    (smartParseJSON sampleId (.obj [("data", .arr [])])).questions = [] :=
  ⟨rfl, rfl, rfl, rfl⟩

/-- C2 (code_bug evidence): the formatter is not idempotent.  On x2x2 the
first pass converts only the first exponent (the second lowercase x sits
after an ASCII digit, so the word-boundary test of rule 6 fails), but
that very conversion turns the digit into a superscript glyph, creating a
fresh word boundary that the second pass then matches. -/
theorem formatScientificText_not_idempotent :
    formatScientificText "x2x2" = "x²x2" ∧
    formatScientificText (formatScientificText "x2x2") = "x²x²" ∧
    ("x²x²" : String) ≠ "x²x2" :=
  ⟨rfl, rfl, by decide⟩

/-- C6: when the stored answers array is shorter than the question list,
the review breakdown still yields one verdict per question, and every
index past the end of the answers array is reported skipped and never
correct. -/
theorem reviewBreakdown_tolerates_short_answers (questions : List Question)
    (answers : List Int) (hshort : answers.length < questions.length) :
    (reviewBreakdown questions answers).length = questions.length ∧
    ∀ i, answers.length ≤ i → i < questions.length →
      (reviewBreakdown questions answers)[i]?.map Verdict.isSkipped = some true ∧
      (reviewBreakdown questions answers)[i]?.map Verdict.isCorrect = some false := by
  constructor
  · exact reviewBreakdownFrom_length answers questions 0
  · intro i hge hlt
    have hq : questions[i]? = some (questions.get ⟨i, hlt⟩) := by
      simp [List.getElem?_eq_getElem hlt]
    have ha : answers[i]? = none := List.getElem?_eq_none hge
    rw [reviewBreakdown, reviewBreakdownFrom_getElem?]
    simp [hq, questionVerdict, ha]

/-- C6 witness: two questions, a single recorded answer; the verdict at
index 1 is skipped and not correct. -/
theorem reviewBreakdown_tolerates_short_answers_witness :
    (reviewBreakdown
        [{ id := "a", type := .multipleChoice, text := "t1",
           options := ["x", "y"], correctAnswer := 0 },
         { id := "b", type := .multipleChoice, text := "t2",
           options := ["x", "y"], correctAnswer := 1 }] [0]).length = 2 ∧
    (reviewBreakdown
        [{ id := "a", type := .multipleChoice, text := "t1",
           options := ["x", "y"], correctAnswer := 0 },
         { id := "b", type := .multipleChoice, text := "t2",
           options := ["x", "y"], correctAnswer := 1 }] [0])[1]?.map Verdict.isSkipped
      = some true := by
  have h := reviewBreakdown_tolerates_short_answers
    [{ id := "a", type := .multipleChoice, text := "t1",
       options := ["x", "y"], correctAnswer := 0 },
     { id := "b", type := .multipleChoice, text := "t2",
       options := ["x", "y"], correctAnswer := 1 }] [0] (by decide)
  exact ⟨h.1, (h.2 1 (by decide) (by decide)).1⟩

/-- C7: switching a question to true-false always yields the fixed
True/False options with correctAnswer 0, and switching to short-answer
always clears the options. -/
theorem changeType_canonical_defaults (qs : List Question) (idx : Nat)
    (h : idx < qs.length) :
    (changeType qs idx .trueFalse)[idx]?.map Question.options = some ["True", "False"] ∧
    (changeType qs idx .trueFalse)[idx]?.map Question.correctAnswer = some 0 ∧
    (changeType qs idx .shortAnswer)[idx]?.map Question.options = some [] := by
  have hq : qs[idx]? = some (qs.get ⟨idx, h⟩) := by
    simp [List.getElem?_eq_getElem h]
  refine ⟨?_, ?_, ?_⟩ <;>
    simp [changeType, hq, List.getElem?_set_eq_of_lt _ h, changeTypeQ]

/-- C7 witness: switching a concrete multiple-choice question. -/
theorem changeType_canonical_defaults_witness :
    (changeType
        [{ id := "a", type := .multipleChoice, text := "t",
           options := ["p", "q", "r"], correctAnswer := 2 }] 0
        .trueFalse)[0]?.map Question.options = some ["True", "False"] ∧
    (changeType
        [{ id := "a", type := .multipleChoice, text := "t",
           options := ["p", "q", "r"], correctAnswer := 2 }] 0
        .shortAnswer)[0]?.map Question.options = some [] := by
  have h := changeType_canonical_defaults
    [{ id := "a", type := .multipleChoice, text := "t",
       options := ["p", "q", "r"], correctAnswer := 2 }] 0 (by decide)
  exact ⟨h.1, h.2.2⟩

/-- C9: when the Normalizer returns no error and zero questions, the
Apply-to-Exam update keeps the existing question list and still merges
every metadata field the Normalizer extracted, leaving all other exam
fields untouched. -/
theorem handleApplyJson_empty_questions_frame (prev : Exam) (r : ParseResult)
    (herr : r.error = none) (hq : r.questions = []) :
    (handleApplyJson prev r).questions = prev.questions ∧
    (handleApplyJson prev r).title = r.meta.title.getD prev.title ∧
    (handleApplyJson prev r).description = r.meta.description.getD prev.description ∧
    (handleApplyJson prev r).durationMinutes
      = r.meta.durationMinutes.getD prev.durationMinutes ∧
    (handleApplyJson prev r).difficulty = r.meta.difficulty.getD prev.difficulty ∧
    (handleApplyJson prev r).totalMarks = r.meta.totalMarks.getD prev.totalMarks ∧
    (handleApplyJson prev r).maxAttempts = r.meta.maxAttempts.getD prev.maxAttempts ∧
    (handleApplyJson prev r).shuffleQuestions
      = r.meta.shuffleQuestions.getD prev.shuffleQuestions ∧
    (handleApplyJson prev r).negativeMarking
      = r.meta.negativeMarking.getD prev.negativeMarking ∧
    (handleApplyJson prev r).targetClass = r.meta.targetClass.getD prev.targetClass ∧
    (handleApplyJson prev r).targetDivision
      = r.meta.targetDivision.getD prev.targetDivision ∧
    (handleApplyJson prev r).id = prev.id ∧
    (handleApplyJson prev r).isPublished = prev.isPublished ∧
    (handleApplyJson prev r).scheduledDate = prev.scheduledDate ∧
    (handleApplyJson prev r).questionCount = prev.questionCount := by
  obtain ⟨qs, meta, err⟩ := r
  subst herr
  simp only at hq
  subst hq
  simp [handleApplyJson, mergeMeta]

/-- C9 witness: an input that parses to a title and no questions applied
over an exam with one existing question. -/
theorem handleApplyJson_empty_questions_frame_witness :
    (handleApplyJson
        { title := "Old", questions := [
            { id := "a", type := .multipleChoice, text := "t",
              options := ["x", "y"], correctAnswer := 0 }] }
        (smartParseJSON sampleId (.obj [("title", .str "New")]))).questions
      = [{ id := "a", type := .multipleChoice, text := "t",
           options := ["x", "y"], correctAnswer := 0 }] ∧
    (handleApplyJson
        { title := "Old", questions := [
            { id := "a", type := .multipleChoice, text := "t",
              options := ["x", "y"], correctAnswer := 0 }] }
        (smartParseJSON sampleId (.obj [("title", .str "New")]))).title
      = ((smartParseJSON sampleId (.obj [("title", .str "New")])).meta.title).getD "Old" := by
  have h := handleApplyJson_empty_questions_frame
    { title := "Old", questions := [
        { id := "a", type := .multipleChoice, text := "t",
          options := ["x", "y"], correctAnswer := 0 }] }
    (smartParseJSON sampleId (.obj [("title", .str "New")])) rfl rfl
  exact ⟨h.1, h.2.1⟩

/-- The formatter leaves the empty string unchanged. -/
theorem formatScientificText_empty : formatScientificText "" = "" := rfl

/-- The formatter leaves the literal True unchanged. -/
theorem formatScientificText_true_lit : formatScientificText "True" = "True" := rfl

/-- The formatter leaves the literal False unchanged. -/
theorem formatScientificText_false_lit : formatScientificText "False" = "False" := rfl

/-- C8: an imported record whose resolved type is multiple-choice with
fewer than 2 resolved options gets the four empty-string placeholders,
and one whose resolved type is true-false gets exactly True/False no
matter what the source held. -/
theorem smartParseJSON_option_defaults (id : String) (fields : List (String × JValue)) :
    (resolveType (.obj fields) = .ok .multipleChoice →
      (resolvedOptions (.obj fields)).length < 2 →
      ∃ q, parseItem id (.obj fields) = .ok (some q) ∧ q.options = ["", "", "", ""]) ∧
    (resolveType (.obj fields) = .ok .trueFalse →
      ∃ q, parseItem id (.obj fields) = .ok (some q) ∧ q.options = ["True", "False"]) := by
  constructor
  · intro ht hlen
    refine ⟨_, by unfold parseItem; rw [ht], ?_⟩
    simp [hlen, formatScientificText_empty]
  · intro ht
    refine ⟨_, by unfold parseItem; rw [ht], ?_⟩
    simp [formatScientificText_true_lit, formatScientificText_false_lit]

/-- C8 witness: a record with a single option and default type gets the
placeholders; a record declaring type true-false with three options gets
exactly True/False. -/
theorem smartParseJSON_option_defaults_witness :
    (∃ q, parseItem "i"
        (.obj [("question", .str "Q"), ("options", .arr [.str "A"])])
        = .ok (some q) ∧ q.options = ["", "", "", ""]) ∧
    (∃ q, parseItem "i"
        (.obj [("question", .str "Q"), ("type", .str "true-false"),
               ("options", .arr [.str "A", .str "B", .str "C"])])
        = .ok (some q) ∧ q.options = ["True", "False"]) :=
  ⟨(smartParseJSON_option_defaults "i"
      [("question", .str "Q"), ("options", .arr [.str "A"])]).1 rfl (by decide),
   (smartParseJSON_option_defaults "i"
      [("question", .str "Q"), ("type", .str "true-false"),
       ("options", .arr [.str "A", .str "B", .str "C"])]).2 rfl⟩

/-- C10 counterexample: for the record with type short and answer x2 the
produced correctAnswerText is the FORMATTED string coercion x² of the
resolved field, not the string coercion x2 itself, so the claim as stated
fails at this input. -/
theorem smartParseJSON_correct_text_formatted_cex :
    parseItem "i" (.obj [("question", .str "Q"), ("type", .str "short"),
        ("answer", .str "x2")])
      = .ok (some { id := "i", type := .shortAnswer, text := "Q", options := [],
                    correctAnswer := 0, correctAnswerText := some "x²" }) ∧
    jsStringOrEmpty (resolvedCorrect (.obj [("question", .str "Q"),
        ("type", .str "short"), ("answer", .str "x2")])) = "x2" ∧
    (some "x²" : Option String) ≠ some "x2" :=
  ⟨rfl, rfl, by decide⟩

/-- C10 amended: the produced correctAnswer is 0 whenever the resolved
correct-answer field is absent or non-numeric, and for short-answer type
the produced correctAnswerText is the formatter applied to the string
coercion of that resolved field — in particular the empty string when the
field is absent or falsy. -/
theorem smartParseJSON_correct_answer_defaults (id : String)
    (fields : List (String × JValue)) (t : QuestionType)
    (ht : resolveType (.obj fields) = .ok t) :
    ∃ q, parseItem id (.obj fields) = .ok (some q) ∧
      ((∀ n : Int, resolvedCorrect (.obj fields) ≠ some (.num n)) →
        q.correctAnswer = 0) ∧
      (t = .shortAnswer →
        q.correctAnswerText
          = some (formatScientificText (jsStringOrEmpty (resolvedCorrect (.obj fields))))) ∧
      (t = .shortAnswer → resolvedCorrect (.obj fields) = none →
        q.correctAnswerText = some "") ∧
      (t = .shortAnswer → ∀ v, resolvedCorrect (.obj fields) = some v →
        jTruthy v = false → q.correctAnswerText = some "") := by
  refine ⟨_, by unfold parseItem; rw [ht], ?_, ?_, ?_, ?_⟩
  · intro h
    rcases hrc : resolvedCorrect (.obj fields) with _ | v
    · simp [hrc]
    · cases v with
      | num n => exact absurd hrc (h n)
      | null => simp [hrc]
      | bool b => simp [hrc]
      | str s => simp [hrc]
      | arr xs => simp [hrc]
      | obj fs => simp [hrc]
  · intro hts
    subst hts
    simp
  · intro hts hrc
    subst hts
    simp [hrc, jsStringOrEmpty, formatScientificText_empty]
  · intro hts v hrc hv
    subst hts
    simp [hrc, jsStringOrEmpty, hv, formatScientificText_empty]

/-- C10 amended witness: a short-answer record with no correct-answer
field at all produces correctAnswer 0 and empty correctAnswerText. -/
theorem smartParseJSON_correct_answer_defaults_witness :
    ∃ q, parseItem "i" (.obj [("text", .str "Q"), ("type", .str "short")])
        = .ok (some q) ∧
      ((∀ n : Int, resolvedCorrect (.obj [("text", .str "Q"), ("type", .str "short")])
          ≠ some (.num n)) → q.correctAnswer = 0) ∧
      (QuestionType.shortAnswer = .shortAnswer →
        q.correctAnswerText = some (formatScientificText (jsStringOrEmpty
          (resolvedCorrect (.obj [("text", .str "Q"), ("type", .str "short")]))))) ∧
      (QuestionType.shortAnswer = .shortAnswer →
        resolvedCorrect (.obj [("text", .str "Q"), ("type", .str "short")]) = none →
        q.correctAnswerText = some "") ∧
      (QuestionType.shortAnswer = .shortAnswer →
        ∀ v, resolvedCorrect (.obj [("text", .str "Q"), ("type", .str "short")]) = some v →
        jTruthy v = false → q.correctAnswerText = some "") :=
  smartParseJSON_correct_answer_defaults "i"
    [("text", .str "Q"), ("type", .str "short")] .shortAnswer rfl

/-- C4 counterexample: the claim asserts one classification — passed
exactly when round(score / totalMarks * 100) is at least 50 — across the
cited code, but the pass-rate statistic of line 271 classifies by the raw
ratio: at score 127 of 255 the displayed percentage is 50 and the row
badge says passed, yet the pass-rate counter treats the same Result as
failed because 127/255 < 1/2. -/
theorem resultPassed_passRate_disagree :
    resultPercentage { id := "r", examId := "e", studentId := "s",
                       score := 127, totalMarks := 255, submittedAtMs := 0 } = 50 ∧
    resultIsPassed { id := "r", examId := "e", studentId := "s",
                     score := 127, totalMarks := 255, submittedAtMs := 0 } = true ∧
    passRatePred { id := "r", examId := "e", studentId := "s",
                   score := 127, totalMarks := 255, submittedAtMs := 0 } = false := by
  have hp : resultPercentage { id := "r", examId := "e", studentId := "s",
                               score := 127, totalMarks := 255, submittedAtMs := 0 } = 50 := by
    show jsRound ((127 : Rat) / 255 * 100) = 50
    rw [jsRound, show (127 : Rat) / 255 * 100 + 1 / 2 = 5131 / 102 by norm_num]
    rw [Int.floor_eq_iff]
    norm_num
  refine ⟨hp, ?_, ?_⟩
  · simp [resultIsPassed, hp]
  · simp only [passRatePred, decide_eq_false_iff_not]
    norm_num

/-- C4 amended: percentage is round(score / totalMarks * 100); the
per-result classification (the row badge of lines 586-588) is passed
exactly when that percentage is at least 50, and a percentage of exactly
50 — in particular an exact half ratio — is classified as passed; the
pass-rate aggregate instead classifies by the unrounded ratio being at
least one half. -/
theorem resultPercentage_pass_threshold (r : Result) :
    (resultIsPassed r = true ↔ 50 ≤ resultPercentage r) ∧
    (resultPercentage r = 50 → resultIsPassed r = true) ∧
    (r.score / r.totalMarks = 1 / 2 →
      resultPercentage r = 50 ∧ resultIsPassed r = true) ∧
    (passRatePred r = true ↔ 1 / 2 ≤ r.score / r.totalMarks) := by
  have h1 : resultIsPassed r = true ↔ 50 ≤ resultPercentage r := by
    simp [resultIsPassed]
  refine ⟨h1, ?_, ?_, ?_⟩
  · intro h
    rw [h1, h]
  · intro h
    have hp : resultPercentage r = 50 := by
      rw [resultPercentage, h, jsRound,
        show (1 : Rat) / 2 * 100 + 1 / 2 = 101 / 2 by norm_num,
        Int.floor_eq_iff]
      norm_num
    exact ⟨hp, by rw [h1, hp]⟩
  · simp [passRatePred]

/-- C4 amended witness: an exact half score is percentage 50 and passed. -/
theorem resultPercentage_pass_threshold_witness :
    resultPercentage { id := "r", examId := "e", studentId := "s",
                       score := 1, totalMarks := 2, submittedAtMs := 0 } = 50 ∧
    resultIsPassed { id := "r", examId := "e", studentId := "s",
                     score := 1, totalMarks := 2, submittedAtMs := 0 } = true :=
  (resultPercentage_pass_threshold { id := "r", examId := "e", studentId := "s",
                                     score := 1, totalMarks := 2, submittedAtMs := 0 }).2.2.1 rfl

/-- Two lists that are permutations of each other, are both sorted by
submission date, and have pairwise-distinct submission dates are equal:
the sorted order of a result set does not depend on arrival order. -/
theorem sorted_perm_eq_of_nodup_keys (l1 : List Result) :
    ∀ (l2 : List Result), l1.Perm l2 → l1.Pairwise resultLe → l2.Pairwise resultLe →
      (l2.map Result.submittedAtMs).Nodup → l1 = l2 := by
  induction l1 with
  | nil =>
    intro l2 hp _ _ _
    exact hp.nil_eq
  | cons x xs ih =>
    intro l2 hp hs1 hs2 hnd
    cases l2 with
    | nil => exact absurd hp.eq_nil (by simp)
    | cons y ys =>
      rcases List.pairwise_cons.mp hs1 with ⟨hx1, hs1t⟩
      rcases List.pairwise_cons.mp hs2 with ⟨hy2, hs2t⟩
      by_cases hxy : x = y
      · subst hxy
        have hxs : xs.Perm ys := hp.cons_inv
        have hndt : (ys.map Result.submittedAtMs).Nodup := by
          simp only [List.map_cons, List.nodup_cons] at hnd
          exact hnd.2
        rw [ih ys hxs hs1t hs2t hndt]
      · exfalso
        have hxmem : x ∈ y :: ys := hp.subset (List.mem_cons_self x xs)
        have hymem : y ∈ x :: xs := hp.symm.subset (List.mem_cons_self y ys)
        have hxys : x ∈ ys := (List.mem_cons.mp hxmem).resolve_left hxy
        have hyxs : y ∈ xs := (List.mem_cons.mp hymem).resolve_left (fun h => hxy h.symm)
        have h1 : x.submittedAtMs ≤ y.submittedAtMs := hx1 y hyxs
        have h2 : y.submittedAtMs ≤ x.submittedAtMs := hy2 x hxys
        have hk : y.submittedAtMs = x.submittedAtMs := le_antisymm h2 h1
        simp only [List.map_cons, List.nodup_cons] at hnd
        exact hnd.1 (by rw [hk]; exact List.mem_map_of_mem Result.submittedAtMs hxys)

/-- In a list of results with pairwise-distinct ids, the id search of
findIndex locates exactly the position the selected result occupies. -/
theorem findIdx?_id_eq_of_nodup (selected : Result) :
    ∀ (l : List Result) (k : Nat), (l.map Result.id).Nodup → l[k]? = some selected →
      l.findIdx? (fun r => r.id == selected.id) = some k := by
  intro l
  induction l with
  | nil => intro k _ h; simp at h
  | cons x xs ih =>
    intro k hnd hk
    simp only [List.map_cons, List.nodup_cons] at hnd
    cases k with
    | zero =>
      have hx : x = selected := by simpa using hk
      subst hx
      simp
    | succ k =>
      have hk2 : xs[k]? = some selected := by simpa using hk
      have hsel : selected ∈ xs := List.getElem?_mem hk2
      have hx : (x.id == selected.id) = false := by
        refine beq_eq_false_iff_ne.mpr ?_
        intro h
        exact hnd.1 (by rw [h]; exact List.mem_map_of_mem Result.id hsel)
      simp [hx, List.findIdx?_succ, ih k hnd.2 hk2]

/-- C5: let canon be the results of one (studentId, examId) pair listed
in ascending submission order with distinct dates and distinct ids, and
let the store deliver them in ANY order l.  Reviewing the result at
position k of canon reports attempt number k + 1 out of the set size. -/
theorem attemptInfo_sorted_position (canon : List Result) (selected : Result)
    (k : Nat) (l : List Result)
    (hperm : l.Perm canon)
    (hmatch : ∀ r ∈ canon,
      r.studentId = selected.studentId ∧ r.examId = selected.examId)
    (hsorted : canon.Pairwise resultLe)
    (hkeys : (canon.map Result.submittedAtMs).Nodup)
    (hids : (canon.map Result.id).Nodup)
    (hk : canon[k]? = some selected) :
    attemptInfo l selected = (k + 1, canon.length) := by
  have hfc : canon.filter (fun r =>
      r.studentId == selected.studentId && r.examId == selected.examId) = canon := by
    rw [List.filter_eq_self]
    intro a ha
    rcases hmatch a ha with ⟨h1, h2⟩
    simp [h1, h2]
  have hfp : (l.filter (fun r =>
      r.studentId == selected.studentId && r.examId == selected.examId)).Perm canon := by
    have h := hperm.filter (fun r =>
      r.studentId == selected.studentId && r.examId == selected.examId)
    rwa [hfc] at h
  have hsorted2 : (sortResults (l.filter (fun r =>
      r.studentId == selected.studentId && r.examId == selected.examId))).Pairwise resultLe :=
    List.sorted_insertionSort resultLe _
  have hperm2 : (sortResults (l.filter (fun r =>
      r.studentId == selected.studentId && r.examId == selected.examId))).Perm canon :=
    (List.perm_insertionSort resultLe _).trans hfp
  have heq : sortResults (l.filter (fun r =>
      r.studentId == selected.studentId && r.examId == selected.examId)) = canon :=
    sorted_perm_eq_of_nodup_keys _ canon hperm2 hsorted2 hsorted hkeys
  have hfind := findIdx?_id_eq_of_nodup selected canon k hids hk
  simp only [attemptInfo]
  rw [heq, hfind]

/-- C5 witness: three results with dates T1 < T2 < T3 arriving in the
order [T3, T1, T2]; the result at T2 reports attempt 2 of 3. -/
theorem attemptInfo_sorted_position_witness :
    attemptInfo
      [{ id := "c", examId := "e", studentId := "s", score := 3,
         totalMarks := 10, submittedAtMs := 3000 },
       { id := "a", examId := "e", studentId := "s", score := 1,
         totalMarks := 10, submittedAtMs := 1000 },
       { id := "b", examId := "e", studentId := "s", score := 2,
         totalMarks := 10, submittedAtMs := 2000 }]
      { id := "b", examId := "e", studentId := "s", score := 2,
        totalMarks := 10, submittedAtMs := 2000 }
      = (2, 3) :=
  attemptInfo_sorted_position
    [{ id := "a", examId := "e", studentId := "s", score := 1,
       totalMarks := 10, submittedAtMs := 1000 },
     { id := "b", examId := "e", studentId := "s", score := 2,
       totalMarks := 10, submittedAtMs := 2000 },
     { id := "c", examId := "e", studentId := "s", score := 3,
       totalMarks := 10, submittedAtMs := 3000 }]
    { id := "b", examId := "e", studentId := "s", score := 2,
      totalMarks := 10, submittedAtMs := 2000 }
    1
    [{ id := "c", examId := "e", studentId := "s", score := 3,
       totalMarks := 10, submittedAtMs := 3000 },
     { id := "a", examId := "e", studentId := "s", score := 1,
       totalMarks := 10, submittedAtMs := 1000 },
     { id := "b", examId := "e", studentId := "s", score := 2,
       totalMarks := 10, submittedAtMs := 2000 }]
    (by decide) (by decide) (by decide) (by decide) (by decide) (by decide)

-- --- Round trip (C3) ---

/-- The portable projection of a Question the round-trip claim compares:
text, type, options and correctAnswer (ids are regeneration targets). -/
def questionPortable (q : Question) : String × QuestionType × List String × Int :=
  (q.text, q.type, q.options, q.correctAnswer)

/-- String coercion of a JavaScript string is the string itself. -/
theorem jToString_str (s : String) : jToString (.str s) = s := rfl

/-- Evaluation of parseItem on an object whose type field resolves
without throwing: the produced question assembled from the resolved
pieces. -/
theorem parseItem_obj (id : String) (fields : List (String × JValue))
    (t : QuestionType) (ht : resolveType (.obj fields) = .ok t) :
    parseItem id (.obj fields) = .ok (some {
      id := id,
      text := formatScientificText (resolvedText (.obj fields)),
      type := t,
      options := (if t = .trueFalse then ["True", "False"]
                  else if t = .multipleChoice ∧ (resolvedOptions (.obj fields)).length < 2
                       then ["", "", "", ""] else resolvedOptions (.obj fields)).map
                 formatScientificText,
      correctAnswer := match resolvedCorrect (.obj fields) with
        | some (.num n) => n
        | _ => 0,
      correctAnswerText := some (formatScientificText
        (if t = .shortAnswer then jsStringOrEmpty (resolvedCorrect (.obj fields))
         else "")) }) := by
  unfold parseItem
  rw [ht]

/-- The type of an exported question resolves back to itself. -/
theorem resolveType_export (q : Question) :
    resolveType (.obj (exportQuestionFields q)) = .ok q.type := by
  obtain ⟨i, t, tx, os, ca, cat⟩ := q
  cases t <;> rfl

/-- The prompt text of an exported question resolves back to itself. -/
theorem resolvedText_export (q : Question) :
    resolvedText (.obj (exportQuestionFields q)) = q.text := by
  obtain ⟨i, t, tx, os, ca, cat⟩ := q
  by_cases h : tx = ""
  · subst h; rfl
  · show (if jTruthy (.str tx) then jToString (.str tx) else "") = tx
    simp [jTruthy, h, jToString_str]

/-- The options of an exported question resolve back to themselves. -/
theorem resolvedOptions_export (q : Question) :
    resolvedOptions (.obj (exportQuestionFields q)) = q.options := by
  obtain ⟨i, t, tx, os, ca, cat⟩ := q
  show (os.map JValue.str).map jToString = os
  rw [List.map_map, show jToString ∘ JValue.str = id from funext jToString_str,
    List.map_id]

/-- The correct-answer search on an exported question finds the exported
correctAnswer number — the key correctAnswer is matched BEFORE the key
correctAnswerText, which is why the short-answer text never survives the
round trip. -/
theorem resolvedCorrect_export (q : Question) :
    resolvedCorrect (.obj (exportQuestionFields q)) = some (.num q.correctAnswer) := by
  obtain ⟨i, t, tx, os, ca, cat⟩ := q
  rfl

/-- Mapping a function that fixes every element of a list is the
identity on that list. -/
theorem map_eq_self_of_mem {α : Type} {f : α → α} :
    ∀ {l : List α}, (∀ a ∈ l, f a = a) → l.map f = l := by
  intro l
  induction l with
  | nil => intro _; rfl
  | cons x xs ih =>
    intro h
    simp only [List.map_cons, h x (List.mem_cons_self x xs),
      ih (fun a ha => h a (List.mem_cons_of_mem x ha))]

/-- Re-importing one exported question reproduces the portable
projection, under the fixed-point and option-shape hypotheses. -/
theorem parseItem_exportQuestion (id : String) (q : Question)
    (hText : formatScientificText q.text = q.text)
    (hOpts : ∀ o ∈ q.options, formatScientificText o = o)
    (hMC : q.type = .multipleChoice → 2 ≤ q.options.length)
    (hTF : q.type = .trueFalse → q.options = ["True", "False"]) :
    ∃ qp, parseItem id (exportQuestion q) = .ok (some qp) ∧
      questionPortable qp = questionPortable q := by
  have hP := parseItem_obj id (exportQuestionFields q) q.type (resolveType_export q)
  refine ⟨_, hP, ?_⟩
  have hOptsEq : q.options.map formatScientificText = q.options := map_eq_self_of_mem hOpts
  simp only [questionPortable, resolvedText_export, resolvedOptions_export,
    resolvedCorrect_export, hText, Prod.mk.injEq, true_and, and_true]
  rcases hQT : q.type with _ | _ | _
  · rw [if_neg (by simp), if_neg (fun h => absurd (hMC hQT) (by omega)), hOptsEq]
  · rw [if_pos rfl, hTF hQT]
    rfl
  · rw [if_neg (by simp), if_neg (by simp), hOptsEq]

/-- Re-importing a list of exported questions reproduces the portable
projections, at any fresh-id position. -/
theorem parseQuestions_export (newId : Nat → String) (qs : List Question)
    (hText : ∀ q ∈ qs, formatScientificText q.text = q.text)
    (hOpts : ∀ q ∈ qs, ∀ o ∈ q.options, formatScientificText o = o)
    (hMC : ∀ q ∈ qs, q.type = .multipleChoice → 2 ≤ q.options.length)
    (hTF : ∀ q ∈ qs, q.type = .trueFalse → q.options = ["True", "False"]) :
    ∀ i, ∃ qps, parseQuestions newId i (qs.map exportQuestion) = .ok qps ∧
      qps.map questionPortable = qs.map questionPortable := by
  induction qs with
  | nil => intro i; exact ⟨[], rfl, rfl⟩
  | cons q qs ih =>
    intro i
    obtain ⟨qp, hqp, hproj⟩ := parseItem_exportQuestion (newId i) q
      (hText q (List.mem_cons_self q qs))
      (hOpts q (List.mem_cons_self q qs))
      (hMC q (List.mem_cons_self q qs))
      (hTF q (List.mem_cons_self q qs))
    obtain ⟨qps, hqps, hprojs⟩ := ih
      (fun a ha => hText a (List.mem_cons_of_mem q ha))
      (fun a ha => hOpts a (List.mem_cons_of_mem q ha))
      (fun a ha => hMC a (List.mem_cons_of_mem q ha))
      (fun a ha => hTF a (List.mem_cons_of_mem q ha))
      (i + 1)
    refine ⟨qp :: qps, ?_, ?_⟩
    · simp only [List.map_cons, parseQuestions, hqp, hqps]
    · simp [hproj, hprojs]

/-- Evaluation of smartParseJSON on an object without an exam field. -/
theorem smartParseJSON_obj (newId : Nat → String)
    (fields : List (String × JValue))
    (hne : jGet (.obj fields) "exam" = none) :
    smartParseJSON newId (.obj fields) =
      match parseQuestions newId 0 (candidateArray (.obj fields)) with
      | .ok qs => ⟨qs, extractMeta (.obj fields), none⟩
      | .error _ => ⟨[], {}, some "Malformed JSON."⟩ := by
  unfold smartParseJSON
  rw [hne]

/-- C3 counterexample: exporting an exam whose single short-answer
question has correctAnswerText Paris and re-importing its JSON yields
correctAnswerText empty — the correct-answer key search hits the exported
correctAnswer key (value 0, falsy) before correctAnswerText — so the
claimed equality on the field set including correctAnswerText fails. -/
theorem export_import_loses_short_answer_text :
    (smartParseJSON sampleId (exportExam { questions := [
        { id := "a", type := .shortAnswer, text := "Q", options := [],
          correctAnswer := 0, correctAnswerText := some "Paris" }] })).questions.map
      Question.correctAnswerText = [some ""] ∧
    ([{ id := "a", type := .shortAnswer, text := "Q", options := [],
        correctAnswer := 0, correctAnswerText := some "Paris" }] :
      List Question).map Question.correctAnswerText = [some "Paris"] ∧
    (some "" : Option String) ≠ some "Paris" :=
  ⟨rfl, rfl, by decide⟩

/-- C3 amended: re-importing an exported Exam yields a question list
equal to the original on text, type, options and correctAnswer (ids
excluded), with no error, provided every question text and option is a
fixed point of the formatter, multiple-choice questions have at least two
options, and true-false questions carry the canonical True/False options.
correctAnswerText is NOT preserved and is excluded from the comparison. -/
theorem export_import_round_trip (newId : Nat → String) (e : Exam)
    (hText : ∀ q ∈ e.questions, formatScientificText q.text = q.text)
    (hOpts : ∀ q ∈ e.questions, ∀ o ∈ q.options, formatScientificText o = o)
    (hMC : ∀ q ∈ e.questions, q.type = .multipleChoice → 2 ≤ q.options.length)
    (hTF : ∀ q ∈ e.questions, q.type = .trueFalse → q.options = ["True", "False"]) :
    (smartParseJSON newId (exportExam e)).error = none ∧
    (smartParseJSON newId (exportExam e)).questions.map questionPortable
      = e.questions.map questionPortable := by
  obtain ⟨qps, hq, hproj⟩ := parseQuestions_export newId e.questions hText hOpts hMC hTF 0
  have h1 := smartParseJSON_obj newId (exportExamFields e) rfl
  rw [show candidateArray (.obj (exportExamFields e))
      = e.questions.map exportQuestion from rfl, hq] at h1
  have h2 : smartParseJSON newId (exportExam e)
      = ⟨qps, extractMeta (.obj (exportExamFields e)), none⟩ := h1
  rw [h2, hproj]
  exact ⟨rfl, rfl⟩

/-- C3 amended witness: a concrete exam with one multiple-choice and one
true-false question round-trips on the portable projection. -/
theorem export_import_round_trip_witness :
    (smartParseJSON sampleId (exportExam { questions := [
        { id := "a", type := .multipleChoice, text := "Qa",
          options := ["left", "right"], correctAnswer := 1 },
        { id := "b", type := .trueFalse, text := "Qb",
          options := ["True", "False"], correctAnswer := 0 }] })).error = none ∧
    (smartParseJSON sampleId (exportExam { questions := [
        { id := "a", type := .multipleChoice, text := "Qa",
          options := ["left", "right"], correctAnswer := 1 },
        { id := "b", type := .trueFalse, text := "Qb",
          options := ["True", "False"], correctAnswer := 0 }] })).questions.map
      questionPortable
      = ([{ id := "a", type := .multipleChoice, text := "Qa",
            options := ["left", "right"], correctAnswer := 1 },
          { id := "b", type := .trueFalse, text := "Qb",
            options := ["True", "False"], correctAnswer := 0 }] :
         List Question).map questionPortable :=
  export_import_round_trip sampleId
    { questions := [
        { id := "a", type := .multipleChoice, text := "Qa",
          options := ["left", "right"], correctAnswer := 1 },
        { id := "b", type := .trueFalse, text := "Qb",
          options := ["True", "False"], correctAnswer := 0 }] }
    (by decide) (by decide) (by decide) (by decide)

